import Mathlib

/-!
Verification development for the startup_tui dashboard (src/src/app.rs).

The development shallowly embeds the Dashboard State & Environment Store
subsystem: the JSON environment document, the running-totals loader and
saver, the 7-day schedule projector inside fn ui, the key handler
on_key_event, the popup capture loops inside fn run, and the logging
routine append_to_log.  Machine floats (f64) are idealised as exact
rationals; every arithmetic appearing in the claims is exact in f64 as
well.  A Rust panic (array index out of bounds, unwrap failure,
serde_json index_mut on a non-object) is modelled as the value none /
a dedicated panicked constructor.
-/

/-- Shallow embedding of a serde_json Value.  serde_json distinguishes
integer-represented numbers from float-represented numbers (they compare
unequal and serialise differently), so the embedding keeps two numeric
constructors; f64 is idealised as Rat. -/
inductive JsonValue where
  | null
  | bool (b : Bool)
  | intNum (n : Int)
  | floatNum (q : Rat)
  | str (s : String)
  | arr (items : List JsonValue)
  | obj (fields : List (String × JsonValue))

/-- Models serde_json indexing value["key"]: field lookup on objects,
Null for a missing key or a non-object. -/
def jIndex (v : JsonValue) (key : String) : JsonValue :=
  match v with
  | .obj fields =>
    match fields.find? (fun p => p.1 == key) with
    | some p => p.2
    | none => .null
  | _ => .null

/-- Models serde_json Value::as_array. -/
def asArray : JsonValue → Option (List JsonValue)
  | .arr items => some items
  | _ => none

/-- Models serde_json Value::as_str. -/
def asStr : JsonValue → Option String
  | .str s => some s
  | _ => none

/-- Models serde_json Value::as_f64: every stored number converts
(idealising f64 as Rat); anything that is not a number does not. -/
def as_f64 : JsonValue → Option Rat
  | .intNum n => some (n : Rat)
  | .floatNum q => some q
  | _ => none

/-- Models the assignment running_totals[index] = v on the fixed
[f64; 3] field of App.  An index past 2 is a Rust out-of-bounds panic,
modelled as none. -/
def totals_set (t : Rat × Rat × Rat) (index : Nat) (v : Rat) : Option (Rat × Rat × Rat) :=
  match index with
  | 0 => some (v, t.2.1, t.2.2)
  | 1 => some (t.1, v, t.2.2)
  | 2 => some (t.1, t.2.1, v)
  | _ => none

/-- Models the enumerate loop body of fn get_running_totals_from_json
(src/src/app.rs lines 139-145): each element that converts with as_f64
is written at its index (panicking past index 2), each element that does
not convert appends one diagnostic message and writes nothing. -/
def running_totals_loop (t : Rat × Rat × Rat) (log : List String) (index : Nat) :
    List JsonValue → Option ((Rat × Rat × Rat) × List String)
  | [] => some (t, log)
  | running_item :: rest =>
    match as_f64 running_item with
    | some v =>
      match totals_set t index v with
      | some t' => running_totals_loop t' log (index + 1) rest
      | none => none
    | none =>
      running_totals_loop t (log ++ ["running totals f64 conversion failed"]) (index + 1) rest

/-- Models fn get_running_totals_from_json (src/src/app.rs lines
137-149).  The second argument is the prior value of the running_totals
field ([0,0,0] at startup, from the derived Default).  The returned list
collects the diagnostic messages passed to append_to_log; none models a
panic. -/
def get_running_totals_from_json (environment_dict : JsonValue) (running_totals : Rat × Rat × Rat) :
    Option ((Rat × Rat × Rat) × List String) :=
  match asArray (jIndex environment_dict "running_totals") with
  | some running_items => running_totals_loop running_totals [] 0 running_items
  | none => some (running_totals, ["messed up running totals existing"])

/-- The serde_json rendering json!([f64; 3]) of the in-memory totals:
an array of three float-represented numbers. -/
def totals_to_json (t : Rat × Rat × Rat) : JsonValue :=
  .arr [.floatNum t.1, .floatNum t.2.1, .floatNum t.2.2]

/-- Models serde_json map insertion for an object's field list: replace
the value at an existing key in place, otherwise add the binding. -/
def set_field (fields : List (String × JsonValue)) (key : String) (v : JsonValue) :
    List (String × JsonValue) :=
  match fields with
  | [] => [(key, v)]
  | p :: rest => if p.1 == key then (key, v) :: rest else p :: set_field rest key v

/-- Models fn update_running_totals_in_json (src/src/app.rs lines
579-610) at the level of the parsed document: the file is re-read and
parsed (env_dict), the running_totals entry is replaced through get_mut
when present, otherwise inserted through index assignment (which turns
Null into an object and panics on any other non-object, modelled as
none), and the document is written back. -/
def update_running_totals_in_json (env_dict : JsonValue) (totals : Rat × Rat × Rat) :
    Option JsonValue :=
  match env_dict with
  | .obj fields => some (.obj (set_field fields "running_totals" (totals_to_json totals)))
  | .null => some (.obj [("running_totals", totals_to_json totals)])
  | _ => none

/-- Loading the document (as fn run does at startup) and immediately
saving the totals with no mutation in between: the composition of
get_running_totals_from_json on the default totals with
update_running_totals_in_json on the same parsed document. -/
def load_then_save (environment_dict : JsonValue) : Option JsonValue :=
  match get_running_totals_from_json environment_dict (0, 0, 0) with
  | none => none
  | some (t, _) => update_running_totals_in_json environment_dict t

/-- Models the chrono formatting new_date.format of the date
current_date + day_increment days, where dates are idealised as day
numbers and the MM/DD/YYYY formatter is kept abstract (format_date). -/
def window_date (format_date : Int → String) (current_date : Int) (day_increment : Nat) : String :=
  format_date (current_date + day_increment)

/-- Models the date_to_index_map HashMap built by fn ui (src/src/app.rs
lines 303-316): for day_increment in 0..7 the formatted date of
current_date + day_increment is inserted with value day_increment.  The
map is represented as the insertion list, most recent insertion first,
so that lookup returns the latest insert exactly as the HashMap does. -/
def date_to_index_map (format_date : Int → String) (current_date : Int) :
    List (String × Nat) :=
  (List.range 7).foldl
    (fun m day_increment =>
      (window_date format_date current_date day_increment, day_increment) :: m) []

/-- Models HashMap::get on the insertion-list representation. -/
def hashmap_get (m : List (String × Nat)) (key : String) : Option Nat :=
  (m.find? (fun p => p.1 == key)).map (fun p => p.2)

/-- Models one iteration of the running-schedule loop of fn ui
(src/src/app.rs lines 319-332) on the pair of AM/PM display rows: an
entry with a string date found in the window map overwrites the AM slot
when it has a string am field and the PM slot when it has a string pm
field; any other entry changes nothing.  (In the source the index is
always at most 6, so List.set coincides with the Rust assignment.) -/
def project_step (format_date : Int → String) (current_date : Int)
    (acc : List String × List String) (todo_item : JsonValue) :
    List String × List String :=
  match asStr (jIndex todo_item "date") with
  | none => acc
  | some dict_date_key_str =>
    match hashmap_get (date_to_index_map format_date current_date) dict_date_key_str with
    | none => acc
    | some insertion_index =>
      let am_items :=
        match asStr (jIndex todo_item "am") with
        | some current_am_string => acc.1.set insertion_index current_am_string
        | none => acc.1
      let pm_items :=
        match asStr (jIndex todo_item "pm") with
        | some current_pm_string => acc.2.set insertion_index current_pm_string
        | none => acc.2
      (am_items, pm_items)

/-- Models the whole running-schedule projection of fn ui (src/src/app.rs
lines 300-332): both rows start as seven "rest" strings and every entry
of the running_schedule array is folded over them in order. -/
def project_schedule (format_date : Int → String) (current_date : Int)
    (running_items : List JsonValue) : List String × List String :=
  running_items.foldl (project_step format_date current_date)
    (List.replicate 7 "rest", List.replicate 7 "rest")

/-- Decides whether a schedule entry carries a string date that falls in
the 7-day window map (the entries fn ui actually uses). -/
def entry_in_window (format_date : Int → String) (current_date : Int)
    (todo_item : JsonValue) : Bool :=
  match asStr (jIndex todo_item "date") with
  | some d => (hashmap_get (date_to_index_map format_date current_date) d).isSome
  | none => false

/-- The key codes the dashboard distinguishes (crossterm KeyCode at the
granularity fn run and fn on_key_event inspect). -/
inductive KeyCode where
  | esc
  | enter
  | backspace
  | char (c : Char)
  | other
  deriving DecidableEq

/-- The crossterm modifier set; the source compares it for equality with
KeyModifiers::CONTROL, so the three flags are modelled explicitly. -/
structure KeyModifiers where
  shift : Bool
  control : Bool
  alt : Bool
  deriving DecidableEq

/-- The exact CONTROL modifier constant. -/
def KeyModifiers.CONTROL : KeyModifiers := ⟨false, true, false⟩

/-- The empty modifier set. -/
def KeyModifiers.NONE : KeyModifiers := ⟨false, false, false⟩

/-- A key-press event (the stream fn run consumes; only presses reach
fn on_key_event because handle_crossterm_events filters on
KeyEventKind::Press). -/
structure KeyEvent where
  modifiers : KeyModifiers
  code : KeyCode
  deriving DecidableEq

/-- The four states of enum ApplicationState (src/src/app.rs lines
69-76); main is the derived Default. -/
inductive ApplicationState where
  | main
  | insertRunPopup
  | insertCalendarItemPopup
  | insertTodoItemPopup
  deriving DecidableEq

/-- The state of struct App that the claims observe: the running flag,
the modal state, the capture buffer (lines of the tui_textarea widget),
the three running totals, the in-memory parsed document, the parsed
content of the environment file on disk, and the diagnostic log lines.
The disk file and the log are modelled at the parsed level; read or
parse errors of the environment file are the swallowed-Err path of the
source and are not replayed here. -/
structure AppModel where
  running : Bool
  application_state : ApplicationState
  textarea_widget : List String
  running_totals : Rat × Rat × Rat
  environment_dict : JsonValue
  file_doc : JsonValue
  log : List String

/-- Models the external tui_textarea editor at the granularity the
claims need: enter starts a new line, a printable character extends the
last line, anything else leaves the buffer unchanged.  Only the facts
that enter is consumed by the buffer and that no key reaches the totals
matter to the claims. -/
def textarea_input (buffer : List String) (key : KeyEvent) : List String :=
  match key.code with
  | KeyCode.enter => buffer ++ [""]
  | KeyCode.char c => buffer.dropLast ++ [(buffer.getLast?.getD "").push c]
  | _ => buffer

/-- The cancel test of the popup loops (src/src/app.rs lines 97-99 and
116-118): escape, or the exact CONTROL modifier together with the
character c. -/
def is_cancel_key (key : KeyEvent) : Bool :=
  key.code == KeyCode.esc
    || (key.modifiers == KeyModifiers.CONTROL && key.code == KeyCode.char 'c')

/-- Models fn on_key_event (src/src/app.rs lines 167-187).  The match
arms are translated in order: quit on escape, q, or ctrl+c/C; ctrl+l/L
switches to the calendar-item popup; ctrl+r and ctrl+t both switch to
the run popup; ctrl+0 zeroes the week slot and saves (the save result is
discarded with let _, but a panic inside the save - serde index
assignment on a non-object document - aborts, modelled as none); any
other key does nothing. -/
def on_key_event (st : AppModel) (key : KeyEvent) : Option AppModel :=
  if key.code = KeyCode.esc ∨ key.code = KeyCode.char 'q'
      ∨ (key.modifiers = KeyModifiers.CONTROL
          ∧ (key.code = KeyCode.char 'c' ∨ key.code = KeyCode.char 'C')) then
    some { st with running := false }
  else if key.modifiers = KeyModifiers.CONTROL
      ∧ (key.code = KeyCode.char 'l' ∨ key.code = KeyCode.char 'L') then
    some { st with application_state := ApplicationState.insertCalendarItemPopup }
  else if key.modifiers = KeyModifiers.CONTROL ∧ key.code = KeyCode.char 'r' then
    some { st with application_state := ApplicationState.insertRunPopup }
  else if key.modifiers = KeyModifiers.CONTROL ∧ key.code = KeyCode.char 't' then
    some { st with application_state := ApplicationState.insertRunPopup }
  else if key.modifiers = KeyModifiers.CONTROL ∧ key.code = KeyCode.char '0' then
    match update_running_totals_in_json st.file_doc
        (0, st.running_totals.2.1, st.running_totals.2.2) with
    | some d =>
      some { st with running_totals := (0, st.running_totals.2.1, st.running_totals.2.2),
                     file_doc := d }
    | none => none
  else
    some st

/-- Models the inner popup capture loop shared verbatim by the
InsertRunPopup and InsertTodoItemPopup arms of fn run (src/src/app.rs
lines 95-110 and 114-129): each key event is tested against the cancel
combination; on cancel the joined buffer is passed to append_to_log
(whose internal unwrap panics when the log file cannot be opened,
modelled by log_open_ok = false giving none) and the loop breaks,
otherwise the key goes to the textarea and the loop continues; when the
event stream ends (the read-error branch) the loop breaks without
logging.  Returns the buffer, the log and the unconsumed events. -/
def popupLoop (log_open_ok : Bool) (buffer : List String) (log : List String) :
    List KeyEvent → Option (List String × List String × List KeyEvent)
  | [] => some (buffer, log, [])
  | key :: rest =>
    if is_cancel_key key then
      if log_open_ok then
        some (buffer, log ++ [String.intercalate "\n" buffer], rest)
      else
        none
    else
      popupLoop log_open_ok (textarea_input buffer key) log rest

/-- Models one iteration of the while loop of fn run (src/src/app.rs
lines 90-133): one event is handled by on_key_event, then the match on
application_state runs the capture loop for InsertRunPopup (resetting
the state to Main afterwards, line 111) or for InsertTodoItemPopup
(which does not reset the state), and does nothing for the other states.
none models a panic. -/
def runStep (log_open_ok : Bool) (st : AppModel) (event : KeyEvent)
    (rest : List KeyEvent) : Option (AppModel × List KeyEvent) :=
  match on_key_event st event with
  | none => none
  | some st1 =>
    match st1.application_state with
    | ApplicationState.insertRunPopup =>
      match popupLoop log_open_ok st1.textarea_widget st1.log rest with
      | none => none
      | some (buffer, log, rest') =>
        some ({ st1 with textarea_widget := buffer, log := log,
                         application_state := ApplicationState.main }, rest')
    | ApplicationState.insertTodoItemPopup =>
      match popupLoop log_open_ok st1.textarea_widget st1.log rest with
      | none => none
      | some (buffer, log, rest') =>
        some ({ st1 with textarea_widget := buffer, log := log }, rest')
    | _ => some (st1, rest)

/-- Models the start of fn run (src/src/app.rs lines 85-89): running is
set, the textarea is freshly defaulted (one empty line), the environment
document is loaded and the totals are read from it.  none models the
out-of-bounds panic of the totals loader. -/
def app_run_init (file_doc : JsonValue) : Option AppModel :=
  match get_running_totals_from_json file_doc (0, 0, 0) with
  | none => none
  | some (t, log_msgs) =>
    some { running := true, application_state := ApplicationState.main,
           textarea_widget := [""], running_totals := t,
           environment_dict := file_doc, file_doc := file_doc, log := log_msgs }

/-- Models the write phase of fn update_running_totals_in_json at the
byte level (src/src/app.rs lines 602-607): the file is opened with
truncate (discarding previous_content) and the serialised document is
written with write_all; fail_after = some k means the underlying write
fails after k bytes.  Returns the resulting file content and whether the
write succeeded. -/
def save_truncate_then_write (previous_content updated_json : List Char)
    (fail_after : Option Nat) : List Char × Bool :=
  match fail_after with
  | none => (updated_json, true)
  | some k => (updated_json.take k, false)

/-- Outcome of one call of fn append_to_log. -/
inductive LogWriteOutcome where
  | panicked
  | ok (new_log : List String)
  deriving DecidableEq

/-- Models fn append_to_log (src/src/app.rs lines 618-628): the log file
open is unwrapped, so a failed open panics; a failed writeln is printed
to stderr and swallowed; the function returns Ok(()) whenever the open
succeeded, so its callers' unwraps never abort on their own. -/
def append_to_log (open_ok : Bool) (write_ok : Bool) (log_file : List String)
    (message : String) : LogWriteOutcome :=
  if open_ok then
    LogWriteOutcome.ok (if write_ok then log_file ++ [message] else log_file)
  else
    LogWriteOutcome.panicked

/-- Modelled from the spec: the Totals Accumulator operation add(delta),
absent from src/ (the ctrl+w shortcut advertised by the help panel has
no handler); per the spec it increments all three counters by delta
simultaneously. -/
def add (delta : Rat) (t : Rat × Rat × Rat) : Rat × Rat × Rat :=
  (t.1 + delta, t.2.1 + delta, t.2.2 + delta)

/-- A document whose running_totals has four elements: the loader panics
indexing the [f64; 3] array at 3. -/
def c5_failing_doc : JsonValue :=
  JsonValue.obj [("running_totals", JsonValue.arr
    [JsonValue.intNum 1, JsonValue.intNum 2, JsonValue.intNum 3, JsonValue.intNum 4])]

/-- The spec's recovery example: running_totals ["a", 2, 3]. -/
def c5_recovery_doc : JsonValue :=
  JsonValue.obj [("running_totals", JsonValue.arr
    [JsonValue.str "a", JsonValue.intNum 2, JsonValue.intNum 3])]

/-- C5: the recovery half of the claim does hold - loading
running_totals ["a", 2, 3] yields (0, 2, 3) with exactly one logged
anomaly - but the "never terminates the process" half is refuted by the
four-element array [1, 2, 3, 4], on which the loader writes past the
fixed [f64; 3] array and panics (modelled as none). -/
theorem C5_totals_load_panics_on_oversized_array :
    get_running_totals_from_json c5_recovery_doc (0, 0, 0) =
      some ((0, 2, 3), ["running totals f64 conversion failed"]) ∧
    get_running_totals_from_json c5_failing_doc (0, 0, 0) = none := by
  exact ⟨rfl, rfl⟩

/-- The find? underlying jIndex ignores a set_field at a different key. -/
lemma find?_set_field_ne (fields : List (String × JsonValue)) (key k : String)
    (v : JsonValue) (hk : k ≠ key) :
    (set_field fields key v).find? (fun p => p.1 == k) =
      fields.find? (fun p => p.1 == k) := by
  induction fields with
  | nil =>
    simp only [set_field, List.find?]
    have : (key == k) = false := by
      simp only [beq_eq_false_iff_ne, ne_eq]
      exact fun h => hk h.symm
    simp [this]
  | cons p rest ih =>
    unfold set_field
    by_cases h : p.1 == key
    · simp only [h, if_true, List.find?]
      have : (key == k) = false := by
        simp only [beq_eq_false_iff_ne, ne_eq]
        exact fun hkey => hk hkey.symm
      have hp : (p.1 == k) = false := by
        have hpk : p.1 = key := by simpa using h
        simp [hpk, this]
      simp [this, hp]
    · simp only [h, if_false, List.find?]
      cases hpk : (p.1 == k) with
      | true => simp [hpk]
      | false => simp [hpk, ih]

/-- jIndex at any other key is unchanged by set_field. -/
lemma jIndex_set_field_ne (fields : List (String × JsonValue)) (key k : String)
    (v : JsonValue) (hk : k ≠ key) :
    jIndex (JsonValue.obj (set_field fields key v)) k =
      jIndex (JsonValue.obj fields) k := by
  simp [jIndex, find?_set_field_ne fields key k v hk]

/-- jIndex at the written key returns the written value. -/
lemma jIndex_set_field_self (fields : List (String × JsonValue)) (key : String)
    (v : JsonValue) :
    jIndex (JsonValue.obj (set_field fields key v)) key = v := by
  induction fields with
  | nil => simp [set_field, jIndex, List.find?]
  | cons p rest ih =>
    unfold set_field
    by_cases h : p.1 == key
    · simp [h, jIndex, List.find?]
    · simp only [h, if_false]
      have hp : (p.1 == key) = false := by simpa using h
      simp only [jIndex, List.find?, hp] at ih ⊢
      exact ih

/-- C3 (amended): for every object document, load followed by the totals
save rewrites only the running_totals field - every other top-level
field, recognised or not, keeps its value - and running_totals itself is
a fixed point whenever it was stored as an array of exactly three
float-represented numbers. -/
theorem C3_load_save_preserves_fields (doc out : JsonValue)
    (fields : List (String × JsonValue))
    (hdoc : doc = JsonValue.obj fields)
    (hsave : load_then_save doc = some out) :
    (∀ k, k ≠ "running_totals" → jIndex out k = jIndex doc k) ∧
    (∀ a b c : Rat,
      jIndex doc "running_totals" =
        JsonValue.arr [JsonValue.floatNum a, JsonValue.floatNum b, JsonValue.floatNum c] →
      jIndex out "running_totals" = jIndex doc "running_totals") := by
  constructor
  · intro k hk
    unfold load_then_save at hsave
    cases hload : get_running_totals_from_json doc (0, 0, 0) with
    | none => rw [hload] at hsave; exact absurd hsave (by simp)
    | some tl =>
      rw [hload] at hsave
      subst hdoc
      simp only [update_running_totals_in_json, Option.some.injEq] at hsave
      rw [← hsave]
      exact jIndex_set_field_ne fields "running_totals" k _ hk
  · intro a b c hrt
    have hload : get_running_totals_from_json doc (0, 0, 0) = some ((a, b, c), []) := by
      unfold get_running_totals_from_json
      rw [hrt]
      simp [asArray, running_totals_loop, as_f64, totals_set]
    unfold load_then_save at hsave
    rw [hload] at hsave
    subst hdoc
    simp only [update_running_totals_in_json, Option.some.injEq] at hsave
    rw [← hsave, hrt]
    exact jIndex_set_field_self fields "running_totals" _

/-- A document whose running_totals is stored as ["a", 2, 3]: the
load-save cycle rewrites it to [0.0, 2.0, 3.0]. -/
def c3_int_doc : JsonValue :=
  JsonValue.obj [("todo_list", JsonValue.arr [JsonValue.str "run errands"]),
                 ("extra_field", JsonValue.str "keep me"),
                 ("running_totals", JsonValue.arr
                   [JsonValue.str "a", JsonValue.intNum 2, JsonValue.intNum 3])]

/-- C3 counterexample: on the document whose running_totals is
["a", 2, 3], load followed by the unmutated totals save is not a fixed
point on the running_totals field - the save rewrites it to the three
recovered float values [0.0, 2.0, 3.0]. -/
theorem C3_roundtrip_not_fixed_point :
    (load_then_save c3_int_doc).map (fun d => jIndex d "running_totals") ≠
      some (jIndex c3_int_doc "running_totals") := by
  intro h
  rw [show (load_then_save c3_int_doc).map (fun d => jIndex d "running_totals") =
      some (JsonValue.arr
        [JsonValue.floatNum 0, JsonValue.floatNum 2, JsonValue.floatNum 3]) from rfl] at h
  rw [show jIndex c3_int_doc "running_totals" =
      JsonValue.arr [JsonValue.str "a", JsonValue.intNum 2, JsonValue.intNum 3] from rfl] at h
  simp at h

/-- A well-stored document: running_totals is three float numbers. -/
def c3_float_fields : List (String × JsonValue) :=
  [("todo_list", JsonValue.arr [JsonValue.str "run errands"]),
   ("extra_field", JsonValue.str "keep me"),
   ("running_totals", JsonValue.arr
     [JsonValue.floatNum 1, JsonValue.floatNum 2, JsonValue.floatNum 3])]

/-- Witness for C3: on a document storing running_totals as three floats
the load-save cycle is the identity on every observed field. -/
theorem C3_load_save_preserves_fields_witness :
    load_then_save (JsonValue.obj c3_float_fields) = some (JsonValue.obj c3_float_fields) ∧
    ((∀ k, k ≠ "running_totals" →
        jIndex (JsonValue.obj c3_float_fields) k = jIndex (JsonValue.obj c3_float_fields) k) ∧
     (∀ a b c : Rat,
        jIndex (JsonValue.obj c3_float_fields) "running_totals" =
          JsonValue.arr [JsonValue.floatNum a, JsonValue.floatNum b, JsonValue.floatNum c] →
        jIndex (JsonValue.obj c3_float_fields) "running_totals" =
          jIndex (JsonValue.obj c3_float_fields) "running_totals")) :=
  ⟨rfl, C3_load_save_preserves_fields (JsonValue.obj c3_float_fields)
    (JsonValue.obj c3_float_fields) c3_float_fields rfl rfl⟩

/-- The window map written out: the seven dates of the window, most
recent insertion first. -/
lemma date_to_index_map_eq (format_date : Int → String) (current_date : Int) :
    date_to_index_map format_date current_date =
      [(window_date format_date current_date 6, 6),
       (window_date format_date current_date 5, 5),
       (window_date format_date current_date 4, 4),
       (window_date format_date current_date 3, 3),
       (window_date format_date current_date 2, 2),
       (window_date format_date current_date 1, 1),
       (window_date format_date current_date 0, 0)] := rfl

/-- A successful map lookup exhibits its binding as a member. -/
lemma hashmap_get_mem {m : List (String × Nat)} {key : String} {i : Nat}
    (h : hashmap_get m key = some i) : (key, i) ∈ m := by
  unfold hashmap_get at h
  cases hf : m.find? (fun p => p.1 == key) with
  | none => rw [hf] at h; exact absurd h (by simp)
  | some p =>
    rw [hf] at h
    have hp : p.1 = key := by simpa using List.find?_some hf
    have hmem : p ∈ m := List.mem_of_find?_eq_some hf
    have hi : p.2 = i := by simpa using h
    have : (key, i) = p := by
      cases p
      simp_all
    rw [this]
    exact hmem

/-- A date found in the window map is one of the seven consecutive
window dates, and its slot index is that date's offset (below 7). -/
lemma hashmap_get_date_some {format_date : Int → String} {current_date : Int}
    {d : String} {i : Nat}
    (h : hashmap_get (date_to_index_map format_date current_date) d = some i) :
    i < 7 ∧ d = window_date format_date current_date i := by
  have hmem := hashmap_get_mem h
  rw [date_to_index_map_eq] at hmem
  simp only [List.mem_cons, List.not_mem_nil, or_false, Prod.mk.injEq] at hmem
  rcases hmem with ⟨h1, h2⟩ | ⟨h1, h2⟩ | ⟨h1, h2⟩ | ⟨h1, h2⟩ | ⟨h1, h2⟩ | ⟨h1, h2⟩ | ⟨h1, h2⟩ <;>
    subst h2 <;> exact ⟨by norm_num, h1⟩

/-- project_step keeps both rows' lengths. -/
lemma project_step_length (format_date : Int → String) (current_date : Int)
    (acc : List String × List String) (e : JsonValue) :
    (project_step format_date current_date acc e).1.length = acc.1.length ∧
    (project_step format_date current_date acc e).2.length = acc.2.length := by
  unfold project_step
  rcases hd : asStr (jIndex e "date") with _ | d
  · simp only [hd]
    trivial
  · simp only [hd]
    rcases hi : hashmap_get (date_to_index_map format_date current_date) d with _ | i
    · simp only [hi]
      trivial
    · simp only [hi]
      rcases ham : asStr (jIndex e "am") with _ | s1 <;>
        rcases hpm : asStr (jIndex e "pm") with _ | s2 <;>
          simp [ham, hpm, List.length_set]

/-- Folding project_step keeps both rows' lengths. -/
lemma project_foldl_length (format_date : Int → String) (current_date : Int)
    (items : List JsonValue) (acc : List String × List String) :
    ((items.foldl (project_step format_date current_date) acc).1.length = acc.1.length ∧
     (items.foldl (project_step format_date current_date) acc).2.length = acc.2.length) := by
  induction items generalizing acc with
  | nil => exact ⟨rfl, rfl⟩
  | cons e es ih =>
    rw [List.foldl_cons]
    have h1 := ih (project_step format_date current_date acc e)
    have h2 := project_step_length format_date current_date acc e
    exact ⟨h1.1.trans h2.1, h1.2.trans h2.2⟩

/-- The provenance of each string a single step can place in the AM row:
it was there before, or it is the entry's am string and the entry's date
is in the window map. -/
lemma project_step_mem_am (format_date : Int → String) (current_date : Int)
    (acc : List String × List String) (e : JsonValue) (s : String)
    (hs : s ∈ (project_step format_date current_date acc e).1) :
    s ∈ acc.1 ∨
      (asStr (jIndex e "am") = some s ∧ ∃ d i, asStr (jIndex e "date") = some d ∧
        hashmap_get (date_to_index_map format_date current_date) d = some i) := by
  unfold project_step at hs
  rcases hd : asStr (jIndex e "date") with _ | d
  · simp only [hd] at hs; exact Or.inl hs
  · simp only [hd] at hs
    rcases hi : hashmap_get (date_to_index_map format_date current_date) d with _ | i
    · simp only [hi] at hs; exact Or.inl hs
    · simp only [hi] at hs
      rcases ham : asStr (jIndex e "am") with _ | s1
      · simp only [ham] at hs; exact Or.inl hs
      · simp only [ham] at hs
        rcases List.mem_or_eq_of_mem_set hs with h | h
        · exact Or.inl h
        · exact Or.inr ⟨by rw [h], d, i, rfl, hi⟩

/-- Same provenance fact for the PM row. -/
lemma project_step_mem_pm (format_date : Int → String) (current_date : Int)
    (acc : List String × List String) (e : JsonValue) (s : String)
    (hs : s ∈ (project_step format_date current_date acc e).2) :
    s ∈ acc.2 ∨
      (asStr (jIndex e "pm") = some s ∧ ∃ d i, asStr (jIndex e "date") = some d ∧
        hashmap_get (date_to_index_map format_date current_date) d = some i) := by
  unfold project_step at hs
  rcases hd : asStr (jIndex e "date") with _ | d
  · simp only [hd] at hs; exact Or.inl hs
  · simp only [hd] at hs
    rcases hi : hashmap_get (date_to_index_map format_date current_date) d with _ | i
    · simp only [hi] at hs; exact Or.inl hs
    · simp only [hi] at hs
      rcases hpm : asStr (jIndex e "pm") with _ | s1
      · simp only [hpm] at hs; exact Or.inl hs
      · simp only [hpm] at hs
        rcases List.mem_or_eq_of_mem_set hs with h | h
        · exact Or.inl h
        · exact Or.inr ⟨by rw [h], d, i, rfl, hi⟩

/-- The provenance fact extended through the whole fold, AM row. -/
lemma project_foldl_mem_am (format_date : Int → String) (current_date : Int)
    (items : List JsonValue) (acc : List String × List String) (s : String)
    (hs : s ∈ (items.foldl (project_step format_date current_date) acc).1) :
    s ∈ acc.1 ∨
      ∃ e ∈ items, asStr (jIndex e "am") = some s ∧ ∃ d i,
        asStr (jIndex e "date") = some d ∧
        hashmap_get (date_to_index_map format_date current_date) d = some i := by
  induction items generalizing acc with
  | nil => exact Or.inl hs
  | cons e es ih =>
    rw [List.foldl_cons] at hs
    rcases ih (project_step format_date current_date acc e) hs with h | ⟨e', he', hprop⟩
    · rcases project_step_mem_am format_date current_date acc e s h with h' | h'
      · exact Or.inl h'
      · exact Or.inr ⟨e, List.mem_cons_self e es, h'⟩
    · exact Or.inr ⟨e', List.mem_cons_of_mem e he', hprop⟩

/-- The provenance fact extended through the whole fold, PM row. -/
lemma project_foldl_mem_pm (format_date : Int → String) (current_date : Int)
    (items : List JsonValue) (acc : List String × List String) (s : String)
    (hs : s ∈ (items.foldl (project_step format_date current_date) acc).2) :
    s ∈ acc.2 ∨
      ∃ e ∈ items, asStr (jIndex e "pm") = some s ∧ ∃ d i,
        asStr (jIndex e "date") = some d ∧
        hashmap_get (date_to_index_map format_date current_date) d = some i := by
  induction items generalizing acc with
  | nil => exact Or.inl hs
  | cons e es ih =>
    rw [List.foldl_cons] at hs
    rcases ih (project_step format_date current_date acc e) hs with h | ⟨e', he', hprop⟩
    · rcases project_step_mem_pm format_date current_date acc e s h with h' | h'
      · exact Or.inl h'
      · exact Or.inr ⟨e, List.mem_cons_self e es, h'⟩
    · exact Or.inr ⟨e', List.mem_cons_of_mem e he', hprop⟩

/-- An entry outside the window (or with no usable date) is a no-op. -/
lemma project_step_not_in_window (format_date : Int → String) (current_date : Int)
    (acc : List String × List String) (e : JsonValue)
    (h : entry_in_window format_date current_date e = false) :
    project_step format_date current_date acc e = acc := by
  unfold entry_in_window at h
  unfold project_step
  rcases hd : asStr (jIndex e "date") with _ | d
  · simp only [hd]
  · simp only [hd] at h ⊢
    rcases hi : hashmap_get (date_to_index_map format_date current_date) d with _ | i
    · simp only [hi]
    · simp only [hi] at h
      exact absurd h (by simp)

/-- Dropping the entries outside the window does not change the fold. -/
lemma project_foldl_filter (format_date : Int → String) (current_date : Int)
    (items : List JsonValue) (acc : List String × List String) :
    (items.filter (entry_in_window format_date current_date)).foldl
        (project_step format_date current_date) acc =
      items.foldl (project_step format_date current_date) acc := by
  induction items generalizing acc with
  | nil => rfl
  | cons e es ih =>
    by_cases hw : entry_in_window format_date current_date e = true
    · rw [List.filter_cons_of_pos hw, List.foldl_cons, List.foldl_cons]
      exact ih (project_step format_date current_date acc e)
    · rw [List.filter_cons_of_neg hw, List.foldl_cons,
          project_step_not_in_window format_date current_date acc e
            (Bool.eq_false_iff.mpr hw)]
      exact ih acc

/-- C1: for every loaded running_schedule array and every projection
date, the per-frame projection yields exactly 7 AM and 7 PM display
entries; every entry is the literal "rest" or an am/pm string taken
verbatim from some schedule entry whose date string equals one of the 7
consecutive window dates starting at today; and entries whose date falls
outside that window have no effect on the output. -/
theorem C1_projection_shape_and_provenance (format_date : Int → String)
    (current_date : Int) (running_items : List JsonValue) :
    (project_schedule format_date current_date running_items).1.length = 7 ∧
    (project_schedule format_date current_date running_items).2.length = 7 ∧
    (∀ s ∈ (project_schedule format_date current_date running_items).1,
      s = "rest" ∨ ∃ e ∈ running_items, asStr (jIndex e "am") = some s ∧
        ∃ d, asStr (jIndex e "date") = some d ∧
          ∃ j, j < 7 ∧ d = window_date format_date current_date j) ∧
    (∀ s ∈ (project_schedule format_date current_date running_items).2,
      s = "rest" ∨ ∃ e ∈ running_items, asStr (jIndex e "pm") = some s ∧
        ∃ d, asStr (jIndex e "date") = some d ∧
          ∃ j, j < 7 ∧ d = window_date format_date current_date j) ∧
    project_schedule format_date current_date
        (running_items.filter (entry_in_window format_date current_date)) =
      project_schedule format_date current_date running_items := by
  refine ⟨?_, ?_, ?_, ?_, ?_⟩
  · rw [project_schedule,
      (project_foldl_length format_date current_date running_items _).1]
    exact List.length_replicate 7 "rest"
  · rw [project_schedule,
      (project_foldl_length format_date current_date running_items _).2]
    exact List.length_replicate 7 "rest"
  · intro s hs
    rw [project_schedule] at hs
    rcases project_foldl_mem_am format_date current_date running_items _ s hs with
      h | ⟨e, he, ham, d, i, hd, hi⟩
    · exact Or.inl (List.eq_of_mem_replicate h)
    · rcases hashmap_get_date_some hi with ⟨hlt, hwin⟩
      exact Or.inr ⟨e, he, ham, d, hd, i, hlt, hwin⟩
  · intro s hs
    rw [project_schedule] at hs
    rcases project_foldl_mem_pm format_date current_date running_items _ s hs with
      h | ⟨e, he, hpm, d, i, hd, hi⟩
    · exact Or.inl (List.eq_of_mem_replicate h)
    · rcases hashmap_get_date_some hi with ⟨hlt, hwin⟩
      exact Or.inr ⟨e, he, hpm, d, hd, i, hlt, hwin⟩
  · rw [project_schedule, project_schedule]
    exact project_foldl_filter format_date current_date running_items _

/-- C9: appending one more schedule entry whose date sits in the window
at slot i overwrites exactly the fields that entry actually has: the AM
row is the previous projection's AM row with slot i set to the entry's
am string when present and is unchanged when the entry has no am string,
and likewise for the PM row.  In particular a later entry for the same
date wins slotwise, and a missing am/pm leaves the slot's current value
(still "rest" unless an earlier entry set it). -/
theorem C9_last_write_wins_fieldwise (format_date : Int → String) (current_date : Int)
    (es : List JsonValue) (e : JsonValue) (d : String) (i : Nat)
    (hd : asStr (jIndex e "date") = some d)
    (hi : hashmap_get (date_to_index_map format_date current_date) d = some i) :
    (project_schedule format_date current_date (es ++ [e])).1 =
      (match asStr (jIndex e "am") with
       | some s => (project_schedule format_date current_date es).1.set i s
       | none => (project_schedule format_date current_date es).1) ∧
    (project_schedule format_date current_date (es ++ [e])).2 =
      (match asStr (jIndex e "pm") with
       | some s => (project_schedule format_date current_date es).2.set i s
       | none => (project_schedule format_date current_date es).2) := by
  have hstep : project_schedule format_date current_date (es ++ [e]) =
      project_step format_date current_date
        (project_schedule format_date current_date es) e := by
    rw [project_schedule, project_schedule, List.foldl_append, List.foldl_cons,
      List.foldl_nil]
  rw [hstep]
  unfold project_step
  simp only [hd, hi]
  constructor
  · rcases ham : asStr (jIndex e "am") with _ | s <;>
      rcases hpm : asStr (jIndex e "pm") with _ | s2 <;> simp
  · rcases ham : asStr (jIndex e "am") with _ | s <;>
      rcases hpm : asStr (jIndex e "pm") with _ | s2 <;> simp

/-- A schedule entry used by the C9 witness: in-window date, an am
string, no pm string. -/
def c9_entry : JsonValue :=
  JsonValue.obj [("date", JsonValue.str "d"), ("am", JsonValue.str "tempo run")]

/-- Witness for C9 at a concrete window (a formatter mapping every day
to "d", whose map sends "d" to slot 6) and one concrete entry: the AM
slot 6 is overwritten and the PM row, for which the entry has no field,
is untouched. -/
theorem C9_last_write_wins_fieldwise_witness :
    asStr (jIndex c9_entry "date") = some "d" ∧
    hashmap_get (date_to_index_map (fun _ => "d") 0) "d" = some 6 ∧
    ((project_schedule (fun _ => "d") 0 ([] ++ [c9_entry])).1 =
        (project_schedule (fun _ => "d") 0 []).1.set 6 "tempo run" ∧
      (project_schedule (fun _ => "d") 0 ([] ++ [c9_entry])).2 =
        (project_schedule (fun _ => "d") 0 []).2) :=
  ⟨rfl, rfl, C9_last_write_wins_fieldwise (fun _ => "d") 0 [] c9_entry "d" 6 rfl rfl⟩

/-- The concrete key events the shortcuts use. -/
def ctrl_r_event : KeyEvent := ⟨KeyModifiers.CONTROL, KeyCode.char 'r'⟩

/-- The ctrl+t event (advertised as the todo-list editor shortcut). -/
def ctrl_t_event : KeyEvent := ⟨KeyModifiers.CONTROL, KeyCode.char 't'⟩

/-- The ctrl+l event. -/
def ctrl_l_event : KeyEvent := ⟨KeyModifiers.CONTROL, KeyCode.char 'l'⟩

/-- The ctrl+0 (reset week) event. -/
def ctrl_zero_event : KeyEvent := ⟨KeyModifiers.CONTROL, KeyCode.char '0'⟩

/-- A bare escape key press. -/
def esc_event : KeyEvent := ⟨KeyModifiers.NONE, KeyCode.esc⟩

/-- A bare enter key press. -/
def enter_event : KeyEvent := ⟨KeyModifiers.NONE, KeyCode.enter⟩

/-- The ctrl+0 arm of on_key_event written out. -/
lemma on_key_event_ctrl_zero (st : AppModel) :
    on_key_event st ctrl_zero_event =
      match update_running_totals_in_json st.file_doc
          (0, st.running_totals.2.1, st.running_totals.2.2) with
      | some d =>
        some { st with running_totals := (0, st.running_totals.2.1, st.running_totals.2.2),
                       file_doc := d }
      | none => none := rfl

/-- on_key_event can only keep the modal state or move it to the
calendar-item or run popup. -/
lemma on_key_event_state_cases (st : AppModel) (key : KeyEvent) (st' : AppModel)
    (h : on_key_event st key = some st') :
    st'.application_state = st.application_state ∨
    st'.application_state = ApplicationState.insertCalendarItemPopup ∨
    st'.application_state = ApplicationState.insertRunPopup := by
  unfold on_key_event at h
  split_ifs at h
  · simp only [Option.some.injEq] at h; rw [← h]; exact Or.inl rfl
  · simp only [Option.some.injEq] at h; rw [← h]; exact Or.inr (Or.inl rfl)
  · simp only [Option.some.injEq] at h; rw [← h]; exact Or.inr (Or.inr rfl)
  · simp only [Option.some.injEq] at h; rw [← h]; exact Or.inr (Or.inr rfl)
  · rcases hu : update_running_totals_in_json st.file_doc
        (0, st.running_totals.2.1, st.running_totals.2.2) with _ | d
    · simp only [hu] at h
      exact Option.noConfusion h
    · simp only [hu, Option.some.injEq] at h; rw [← h]; exact Or.inl rfl
  · simp only [Option.some.injEq] at h; rw [← h]; exact Or.inl rfl

/-- on_key_event never touches the capture buffer. -/
lemma on_key_event_textarea (st : AppModel) (key : KeyEvent) (st' : AppModel)
    (h : on_key_event st key = some st') :
    st'.textarea_widget = st.textarea_widget := by
  unfold on_key_event at h
  split_ifs at h
  · simp only [Option.some.injEq] at h; rw [← h]
  · simp only [Option.some.injEq] at h; rw [← h]
  · simp only [Option.some.injEq] at h; rw [← h]
  · simp only [Option.some.injEq] at h; rw [← h]
  · rcases hu : update_running_totals_in_json st.file_doc
        (0, st.running_totals.2.1, st.running_totals.2.2) with _ | d
    · simp only [hu] at h
      exact Option.noConfusion h
    · simp only [hu, Option.some.injEq] at h; rw [← h]
  · simp only [Option.some.injEq] at h; rw [← h]

/-- on_key_event never touches the in-memory environment document. -/
lemma on_key_event_env (st : AppModel) (key : KeyEvent) (st' : AppModel)
    (h : on_key_event st key = some st') :
    st'.environment_dict = st.environment_dict := by
  unfold on_key_event at h
  split_ifs at h
  · simp only [Option.some.injEq] at h; rw [← h]
  · simp only [Option.some.injEq] at h; rw [← h]
  · simp only [Option.some.injEq] at h; rw [← h]
  · simp only [Option.some.injEq] at h; rw [← h]
  · rcases hu : update_running_totals_in_json st.file_doc
        (0, st.running_totals.2.1, st.running_totals.2.2) with _ | d
    · simp only [hu] at h
      exact Option.noConfusion h
    · simp only [hu, Option.some.injEq] at h; rw [← h]
  · simp only [Option.some.injEq] at h; rw [← h]

/-- The only totals mutation on_key_event can make is the week reset. -/
lemma on_key_event_totals (st : AppModel) (key : KeyEvent) (st' : AppModel)
    (h : on_key_event st key = some st') :
    st'.running_totals = st.running_totals ∨
    st'.running_totals = (0, st.running_totals.2.1, st.running_totals.2.2) := by
  unfold on_key_event at h
  split_ifs at h
  · simp only [Option.some.injEq] at h; rw [← h]; exact Or.inl rfl
  · simp only [Option.some.injEq] at h; rw [← h]; exact Or.inl rfl
  · simp only [Option.some.injEq] at h; rw [← h]; exact Or.inl rfl
  · simp only [Option.some.injEq] at h; rw [← h]; exact Or.inl rfl
  · rcases hu : update_running_totals_in_json st.file_doc
        (0, st.running_totals.2.1, st.running_totals.2.2) with _ | d
    · simp only [hu] at h
      exact Option.noConfusion h
    · simp only [hu, Option.some.injEq] at h; rw [← h]; exact Or.inr rfl
  · simp only [Option.some.injEq] at h; rw [← h]; exact Or.inl rfl

/-- The cancel branch of the popup loop under an openable log file. -/
lemma popupLoop_cancel (buffer log : List String) (key : KeyEvent)
    (rest : List KeyEvent) (hk : is_cancel_key key = true) :
    popupLoop true buffer log (key :: rest) =
      some (buffer, log ++ [String.intercalate "\n" buffer], rest) := by
  unfold popupLoop
  simp [hk]

/-- One run-loop iteration cannot reach the InsertTodoItemPopup state:
no key handler assigns it, the run popup arm resets to Main, and the
remaining arms keep the state on_key_event produced. -/
lemma runStep_no_todo (log_open_ok : Bool) (st : AppModel) (event : KeyEvent)
    (rest : List KeyEvent) (st' : AppModel) (rest' : List KeyEvent)
    (h : runStep log_open_ok st event rest = some (st', rest'))
    (hst : st.application_state ≠ ApplicationState.insertTodoItemPopup) :
    st'.application_state ≠ ApplicationState.insertTodoItemPopup := by
  unfold runStep at h
  rcases hke : on_key_event st event with _ | st1
  · simp only [hke] at h
    exact Option.noConfusion h
  · simp only [hke] at h
    have hs1 : st1.application_state ≠ ApplicationState.insertTodoItemPopup := by
      rcases on_key_event_state_cases st event st1 hke with h1 | h1 | h1 <;>
        rw [h1] <;> simp_all
    rcases hstate : st1.application_state with _ | _ | _ | _
    · simp only [hstate, Option.some.injEq, Prod.mk.injEq] at h
      rw [← h.1, hstate]
      simp
    · simp only [hstate] at h
      rcases hp : popupLoop log_open_ok st1.textarea_widget st1.log rest with
        _ | ⟨buffer, log, r⟩
      · simp only [hp] at h
        exact Option.noConfusion h
      · simp only [hp, Option.some.injEq, Prod.mk.injEq] at h
        rw [← h.1]
        simp
    · simp only [hstate, Option.some.injEq, Prod.mk.injEq] at h
      rw [← h.1, hstate]
      simp
    · exact absurd hstate hs1

/-- The popup phase of a run-loop iteration only moves the buffer, the
log and the modal state: the totals, the in-memory document and the disk
document after the iteration are exactly those on_key_event produced. -/
lemma runStep_popup_frame (log_open_ok : Bool) (st : AppModel) (event : KeyEvent)
    (rest : List KeyEvent) (st' : AppModel) (rest' : List KeyEvent)
    (h : runStep log_open_ok st event rest = some (st', rest')) :
    ∃ st1, on_key_event st event = some st1 ∧
      st'.running_totals = st1.running_totals ∧
      st'.environment_dict = st1.environment_dict ∧
      st'.file_doc = st1.file_doc := by
  unfold runStep at h
  rcases hke : on_key_event st event with _ | st1
  · simp only [hke] at h
    exact Option.noConfusion h
  · simp only [hke] at h
    refine ⟨st1, rfl, ?_⟩
    rcases hstate : st1.application_state with _ | _ | _ | _
    · simp only [hstate, Option.some.injEq, Prod.mk.injEq] at h
      rw [← h.1]
      exact ⟨rfl, rfl, rfl⟩
    · simp only [hstate] at h
      rcases hp : popupLoop log_open_ok st1.textarea_widget st1.log rest with
        _ | ⟨buffer, log, r⟩
      · simp only [hp] at h
        exact Option.noConfusion h
      · simp only [hp, Option.some.injEq, Prod.mk.injEq] at h
        rw [← h.1]
        exact ⟨rfl, rfl, rfl⟩
    · simp only [hstate, Option.some.injEq, Prod.mk.injEq] at h
      rw [← h.1]
      exact ⟨rfl, rfl, rfl⟩
    · simp only [hstate] at h
      rcases hp : popupLoop log_open_ok st1.textarea_widget st1.log rest with
        _ | ⟨buffer, log, r⟩
      · simp only [hp] at h
        exact Option.noConfusion h
      · simp only [hp, Option.some.injEq, Prod.mk.injEq] at h
        rw [← h.1]
        exact ⟨rfl, rfl, rfl⟩

/-- C4: when a key event has opened the run popup (the only capture
popup the state machine can reach, see runStep_no_todo), pressing escape
or ctrl+c cancels it: the capture buffer's joined text is appended to
the diagnostic log, the buffer is not applied to the document (the
in-memory document, the disk document and the totals are exactly those
of the state entering the popup), and the state machine is back in Main;
the key handler itself never touches the in-memory document. -/
theorem C4_cancel_logs_and_returns_to_main (st st1 : AppModel) (event key : KeyEvent)
    (rest : List KeyEvent)
    (h1 : on_key_event st event = some st1)
    (h2 : st1.application_state = ApplicationState.insertRunPopup)
    (hk : is_cancel_key key = true) :
    runStep true st event (key :: rest) =
      some ({ st1 with application_state := ApplicationState.main,
                       log := st1.log ++ [String.intercalate "\n" st1.textarea_widget] },
            rest) ∧
    st1.environment_dict = st.environment_dict := by
  constructor
  · unfold runStep
    simp only [h1, h2, popupLoop_cancel st1.textarea_widget st1.log key rest hk]
  · exact on_key_event_env st event st1 h1

/-- The state the C4 witness starts from: Main, with typed text left in
the capture buffer. -/
def c4_st : AppModel :=
  { running := true, application_state := ApplicationState.main,
    textarea_widget := ["13.1"], running_totals := (1, 2, 3),
    environment_dict := JsonValue.null, file_doc := JsonValue.null, log := [] }

/-- Witness for C4: opening the run popup with ctrl+r and cancelling
with escape logs the buffered text, changes no document and lands in
Main. -/
theorem C4_cancel_logs_and_returns_to_main_witness :
    on_key_event c4_st ctrl_r_event =
      some { c4_st with application_state := ApplicationState.insertRunPopup } ∧
    ({ c4_st with application_state := ApplicationState.insertRunPopup } :
        AppModel).application_state = ApplicationState.insertRunPopup ∧
    is_cancel_key esc_event = true ∧
    (runStep true c4_st ctrl_r_event (esc_event :: []) =
      some ({ { c4_st with application_state := ApplicationState.insertRunPopup } with
                application_state := ApplicationState.main,
                log := ({ c4_st with application_state :=
                    ApplicationState.insertRunPopup } : AppModel).log ++
                  [String.intercalate "\n"
                    ({ c4_st with application_state :=
                        ApplicationState.insertRunPopup } : AppModel).textarea_widget] },
            []) ∧
      ({ c4_st with application_state := ApplicationState.insertRunPopup } :
          AppModel).environment_dict = c4_st.environment_dict) :=
  ⟨rfl, rfl, rfl,
    C4_cancel_logs_and_returns_to_main c4_st
      { c4_st with application_state := ApplicationState.insertRunPopup }
      ctrl_r_event esc_event [] rfl rfl rfl⟩

/-- C2 (amended): enter is not a confirm command.  Inside the popup
capture loop an enter key is routed to the capture buffer like any other
non-cancel key (starting a new line) and the loop continues; a run-loop
iteration never changes the totals, the in-memory document or the disk
document beyond what the key handler itself did; and the key handler's
only totals mutation is the ctrl+0 week reset - no key path parses the
buffer or adds to the totals. -/
theorem C2_enter_is_not_confirm :
    (∀ (log_open_ok : Bool) (buffer log : List String) (rest : List KeyEvent),
      popupLoop log_open_ok buffer log (enter_event :: rest) =
        popupLoop log_open_ok (buffer ++ [""]) log rest) ∧
    (∀ (log_open_ok : Bool) (st : AppModel) (event : KeyEvent)
        (rest : List KeyEvent) (st' : AppModel) (rest' : List KeyEvent),
      runStep log_open_ok st event rest = some (st', rest') →
      ∃ st1, on_key_event st event = some st1 ∧
        st'.running_totals = st1.running_totals ∧
        st'.environment_dict = st1.environment_dict ∧
        st'.file_doc = st1.file_doc) ∧
    (∀ (st : AppModel) (key : KeyEvent) (st' : AppModel),
      on_key_event st key = some st' →
      st'.running_totals = st.running_totals ∨
      st'.running_totals = (0, st.running_totals.2.1, st.running_totals.2.2)) := by
  refine ⟨?_, ?_, ?_⟩
  · intro log_open_ok buffer log rest
    simp only [popupLoop]
    have hc : is_cancel_key enter_event = false := by decide
    rw [hc]
    simp [textarea_input, enter_event]
  · intro log_open_ok st event rest st' rest' h
    exact runStep_popup_frame log_open_ok st event rest st' rest' h
  · intro st key st' h
    exact on_key_event_totals st key st' h

/-- The state the C2 counterexample starts from: totals [10, 10, 10] and
"12.5" already typed in the capture buffer. -/
def c2_st : AppModel :=
  { running := true, application_state := ApplicationState.main,
    textarea_widget := ["12.5"], running_totals := (10, 10, 10),
    environment_dict := JsonValue.null,
    file_doc := JsonValue.obj [("running_totals", JsonValue.arr
      [JsonValue.floatNum 10, JsonValue.floatNum 10, JsonValue.floatNum 10])],
    log := [] }

/-- C2 counterexample: with totals [10, 10, 10] and "12.5" in the
buffer, pressing enter in the popup leaves the totals at [10, 10, 10]
(not [22.5, 22.5, 22.5]), persists nothing, and the iteration ends back
in Main only because the input stream ends - no parse happened. -/
theorem C2_enter_does_not_add :
    (runStep true c2_st ctrl_r_event [enter_event]).map (fun p => p.1.running_totals) =
      some (10, 10, 10) ∧
    ¬ (((10 : Rat), (10 : Rat), (10 : Rat)) =
        ((22.5 : Rat), (22.5 : Rat), (22.5 : Rat))) ∧
    (runStep true c2_st ctrl_r_event [enter_event]).map (fun p => p.1.file_doc) =
      some c2_st.file_doc ∧
    (runStep true c2_st ctrl_r_event [enter_event]).map (fun p => p.1.textarea_widget) =
      some ["12.5", ""] := by
  refine ⟨rfl, by norm_num, rfl, rfl⟩

/-- Witness for C2's amended theorem at concrete inputs. -/
theorem C2_enter_is_not_confirm_witness :
    popupLoop true ["12.5"] [] (enter_event :: []) =
      popupLoop true (["12.5"] ++ [""]) [] [] ∧
    (∃ st1, on_key_event c4_st esc_event = some st1 ∧
      ({ c4_st with running := false } : AppModel).running_totals = st1.running_totals ∧
      ({ c4_st with running := false } : AppModel).environment_dict = st1.environment_dict ∧
      ({ c4_st with running := false } : AppModel).file_doc = st1.file_doc) ∧
    (({ c4_st with running := false } : AppModel).running_totals = c4_st.running_totals ∨
      ({ c4_st with running := false } : AppModel).running_totals =
        (0, c4_st.running_totals.2.1, c4_st.running_totals.2.2)) :=
  ⟨C2_enter_is_not_confirm.1 true ["12.5"] [] [],
   C2_enter_is_not_confirm.2.1 true c4_st esc_event [] { c4_st with running := false } [] rfl,
   C2_enter_is_not_confirm.2.2 c4_st esc_event { c4_st with running := false } rfl⟩

/-- The Main state the C6 counterexample starts from, with stale text in
the capture buffer. -/
def c6_st : AppModel :=
  { running := true, application_state := ApplicationState.main,
    textarea_widget := ["stale text"], running_totals := (1, 2, 3),
    environment_dict := JsonValue.null, file_doc := JsonValue.null, log := [] }

/-- C6 counterexample: ctrl+t (the advertised todo-editor command) and
ctrl+r (the schedule-editor command) transition Main to the same state
InsertRunPopup, and neither initialises the capture buffer - the stale
text survives.  The three popup commands therefore do not map to three
distinct states. -/
theorem C6_popup_commands_collide :
    on_key_event c6_st ctrl_t_event =
      some { c6_st with application_state := ApplicationState.insertRunPopup } ∧
    on_key_event c6_st ctrl_r_event =
      some { c6_st with application_state := ApplicationState.insertRunPopup } ∧
    ({ c6_st with application_state := ApplicationState.insertRunPopup } :
        AppModel).textarea_widget = ["stale text"] :=
  ⟨rfl, rfl, rfl⟩

/-- C6 (amended): ctrl+r and ctrl+t both transition to the run popup
state, ctrl+l transitions to the calendar-item popup state, no key
handler ever touches the capture buffer (it is created once at startup
and never reset), the state machine starts in Main, and no run-loop
iteration can ever enter the InsertTodoItemPopup state - that fourth
state is unreachable. -/
theorem C6_transitions_and_todo_unreachable :
    (∀ st : AppModel, on_key_event st ctrl_r_event =
      some { st with application_state := ApplicationState.insertRunPopup }) ∧
    (∀ st : AppModel, on_key_event st ctrl_t_event =
      some { st with application_state := ApplicationState.insertRunPopup }) ∧
    (∀ st : AppModel, on_key_event st ctrl_l_event =
      some { st with application_state := ApplicationState.insertCalendarItemPopup }) ∧
    (∀ (st : AppModel) (key : KeyEvent) (st' : AppModel),
      on_key_event st key = some st' → st'.textarea_widget = st.textarea_widget) ∧
    (∀ (d : JsonValue) (st : AppModel), app_run_init d = some st →
      st.application_state = ApplicationState.main) ∧
    (∀ (log_open_ok : Bool) (st : AppModel) (event : KeyEvent)
        (rest : List KeyEvent) (st' : AppModel) (rest' : List KeyEvent),
      runStep log_open_ok st event rest = some (st', rest') →
      st.application_state ≠ ApplicationState.insertTodoItemPopup →
      st'.application_state ≠ ApplicationState.insertTodoItemPopup) := by
  refine ⟨fun st => rfl, fun st => rfl, fun st => rfl, ?_, ?_, ?_⟩
  · intro st key st' h
    exact on_key_event_textarea st key st' h
  · intro d st h
    unfold app_run_init at h
    rcases hl : get_running_totals_from_json d (0, 0, 0) with _ | tl
    · simp only [hl] at h
      exact Option.noConfusion h
    · simp only [hl, Option.some.injEq] at h
      rw [← h]
  · intro log_open_ok st event rest st' rest' h hst
    exact runStep_no_todo log_open_ok st event rest st' rest' h hst

/-- Witness for C6's amended theorem at concrete inputs. -/
theorem C6_transitions_and_todo_unreachable_witness :
    on_key_event c6_st ctrl_l_event =
      some { c6_st with application_state := ApplicationState.insertCalendarItemPopup } ∧
    ({ c6_st with application_state := ApplicationState.insertRunPopup } :
        AppModel).textarea_widget = c6_st.textarea_widget ∧
    ({ running := true, application_state := ApplicationState.main,
       textarea_widget := [""], running_totals := (0, 0, 0),
       environment_dict := JsonValue.null, file_doc := JsonValue.null,
       log := ["messed up running totals existing"] } : AppModel).application_state =
      ApplicationState.main ∧
    ({ c6_st with running := false } : AppModel).application_state ≠
      ApplicationState.insertTodoItemPopup :=
  ⟨C6_transitions_and_todo_unreachable.2.2.1 c6_st,
   C6_transitions_and_todo_unreachable.2.2.2.1 c6_st ctrl_r_event
     { c6_st with application_state := ApplicationState.insertRunPopup } rfl,
   C6_transitions_and_todo_unreachable.2.2.2.2.1 JsonValue.null
     { running := true, application_state := ApplicationState.main,
       textarea_widget := [""], running_totals := (0, 0, 0),
       environment_dict := JsonValue.null, file_doc := JsonValue.null,
       log := ["messed up running totals existing"] } rfl,
   C6_transitions_and_todo_unreachable.2.2.2.2.2 true c6_st esc_event []
     { c6_st with running := false } [] rfl (by simp [c6_st])⟩

/-- C8: in Main with totals (w, m, y) and an object document on disk,
ctrl+0 zeroes only the week slot, leaves month and year, immediately
persists the new totals into the file's running_totals field, keeps the
state machine in Main, and a subsequent add x (the spec-modelled
accumulator operation) yields (x, m + x, y + x). -/
theorem C8_reset_week_zeroes_only_week (st : AppModel) (w m y x : Rat)
    (fields : List (String × JsonValue))
    (hs : st.application_state = ApplicationState.main)
    (ht : st.running_totals = (w, m, y))
    (hf : st.file_doc = JsonValue.obj fields) :
    ∃ st', on_key_event st ctrl_zero_event = some st' ∧
      st'.application_state = ApplicationState.main ∧
      st'.running_totals = (0, m, y) ∧
      jIndex st'.file_doc "running_totals" =
        JsonValue.arr [JsonValue.floatNum 0, JsonValue.floatNum m, JsonValue.floatNum y] ∧
      add x st'.running_totals = (x, m + x, y + x) := by
  have hstep := on_key_event_ctrl_zero st
  rw [ht, hf] at hstep
  simp only [update_running_totals_in_json] at hstep
  refine ⟨_, hstep, hs, rfl, ?_, ?_⟩
  · exact jIndex_set_field_self fields "running_totals" _
  · show ((0 : Rat) + x, m + x, y + x) = (x, m + x, y + x)
    rw [zero_add]

/-- The disk document the C8 witness uses. -/
def c8_fields : List (String × JsonValue) :=
  [("running_totals", JsonValue.arr
    [JsonValue.floatNum 5, JsonValue.floatNum 6, JsonValue.floatNum 7])]

/-- The Main state the C8 witness starts from. -/
def c8_st : AppModel :=
  { running := true, application_state := ApplicationState.main,
    textarea_widget := [""], running_totals := (5, 6, 7),
    environment_dict := JsonValue.obj c8_fields,
    file_doc := JsonValue.obj c8_fields, log := [] }

/-- Witness for C8 at totals (5, 6, 7) and delta 2. -/
theorem C8_reset_week_zeroes_only_week_witness :
    c8_st.application_state = ApplicationState.main ∧
    c8_st.running_totals = (5, 6, 7) ∧
    c8_st.file_doc = JsonValue.obj c8_fields ∧
    (∃ st', on_key_event c8_st ctrl_zero_event = some st' ∧
      st'.application_state = ApplicationState.main ∧
      st'.running_totals = (0, 6, 7) ∧
      jIndex st'.file_doc "running_totals" =
        JsonValue.arr [JsonValue.floatNum 0, JsonValue.floatNum 6, JsonValue.floatNum 7] ∧
      add 2 st'.running_totals = (2, 6 + 2, 7 + 2)) :=
  ⟨rfl, rfl, rfl,
   C8_reset_week_zeroes_only_week c8_st 5 6 7 2 c8_fields rfl rfl rfl⟩

/-- C7 counterexample: with previous file content "A" and new
serialisation "BC", a write failing after one byte leaves the file
holding "B": the save neither fully succeeded nor left the previous
content intact, so the truncate-then-write save is not atomic from the
caller's perspective. -/
theorem C7_save_not_atomic :
    ¬ ((save_truncate_then_write ['A'] ['B', 'C'] (some 1)).2 = true ∨
       (save_truncate_then_write ['A'] ['B', 'C'] (some 1)).1 = ['A']) := by
  decide

/-- C7 (amended): the save opens the file with truncate and then writes,
so a write failing after k bytes reports failure and leaves the file
holding exactly the first k bytes of the new serialisation; whenever
that prefix differs from the previous content, the previous content is
gone.  (The failure is returned as an io::Result, which the ctrl+0 call
site discards with let _ rather than treating as fatal.) -/
theorem C7_failed_save_leaves_partial_file :
    ∀ (previous_content updated_json : List Char) (k : Nat),
      save_truncate_then_write previous_content updated_json (some k) =
        (updated_json.take k, false) ∧
      (updated_json.take k ≠ previous_content →
        (save_truncate_then_write previous_content updated_json (some k)).1 ≠
          previous_content) := by
  intro previous_content updated_json k
  exact ⟨rfl, fun h => h⟩

/-- Witness for C7's amended theorem: the one-byte-failed save of "BC"
over "A" leaves "B", not "A". -/
theorem C7_failed_save_leaves_partial_file_witness :
    (save_truncate_then_write ['A'] ['B', 'C'] (some 1)).1 ≠ ['A'] :=
  (C7_failed_save_leaves_partial_file ['A'] ['B', 'C'] 1).2 (by decide)

/-- C10 counterexample: when the log file cannot be opened, the very
first append_to_log call panics (the open is unwrapped), so logging can
crash the dashboard. -/
theorem C10_log_open_failure_panics :
    append_to_log false true [] "Todo list items don't exist" =
      LogWriteOutcome.panicked := rfl

/-- C10 (amended): whenever the log file opens, append_to_log swallows
any write failure and returns Ok - so the unwraps at its call sites
never abort on their own - and it panics exactly when the log file
fails to open. -/
theorem C10_write_failures_swallowed :
    (∀ (write_ok : Bool) (log_file : List String) (message : String),
      append_to_log true write_ok log_file message =
        LogWriteOutcome.ok (if write_ok then log_file ++ [message] else log_file)) ∧
    (∀ (open_ok write_ok : Bool) (log_file : List String) (message : String),
      append_to_log open_ok write_ok log_file message = LogWriteOutcome.panicked ↔
        open_ok = false) := by
  constructor
  · intro write_ok log_file message
    rfl
  · intro open_ok write_ok log_file message
    cases open_ok <;> simp [append_to_log]

/-- Witness for C10's amended theorem: a failed write on an open log
file is swallowed, and the panic characterisation instantiated. -/
theorem C10_write_failures_swallowed_witness :
    append_to_log true false ["old line"] "m" =
      LogWriteOutcome.ok (if false then ["old line"] ++ ["m"] else ["old line"]) ∧
    (append_to_log false true [] "m" = LogWriteOutcome.panicked ↔ false = false) :=
  ⟨C10_write_failures_swallowed.1 false ["old line"] "m",
   C10_write_failures_swallowed.2 false true [] "m"⟩
